import Mathlib

/-!
# Foxcom — Reputation & Quota Engine: shallow embedding and verification

This file embeds the core of the Foxcom repository (`src/core/db.py`,
`src/cogs/reputation.py`, `src/cogs/broadcasts.py`) in Lean 4 and proves or
refutes the frozen claims about it.

Modelling conventions:

* Wall-clock instants are integers counting **microseconds** (`ℤ`), the exact
  resolution of Python `datetime` values; durations given in seconds
  (`window_seconds`, the TTL, the retention horizon) are scaled by
  `usPerSec = 10^6`.  The Python code stores timestamps as ISO-8601 strings
  produced by `datetime.isoformat()`; for well-formed rows the lexicographic
  string order used by the SQL comparisons coincides with chronological order,
  so a row's stored string is modelled by its integer time key together with a
  `parseOk` flag recording whether `parse_iso_utc` succeeds on it
  (`parse_iso_utc` returns `None` on a malformed string).
* SQL tables are association lists; `INSERT OR REPLACE` is delete-matching +
  append, `DELETE ... WHERE` is `List.filter`, a `SELECT` by primary key is
  `List.find?`.
* `int(td.total_seconds())` on a microsecond-resolution `timedelta` of the
  magnitudes occurring here truncates the exact number of seconds toward
  zero (the float error of `total_seconds()` is ≈ 1e-12 s, far below the
  1e-6 s time resolution, so it can never move the value across an integer
  boundary): this is `Int.tdiv _ usPerSec`.
* In `check_and_consume_broadcast_quota` the two denial paths call
  `conn.close()` *without* `conn.commit()`; the Python `sqlite3` module rolls
  back the open implicit transaction in that case, so the opportunistic
  retention `DELETE` is discarded on a denied request.  The model returns the
  original state there.  When `max_actions <= 0` and no row is in the window,
  `rows[0]` raises `IndexError`; the model returns `none` for that path (the
  exception propagates, nothing is committed).
-/

namespace Foxcom

/-- Microseconds per second: scale between the integer time axis and the
second-valued durations appearing in the source. -/
def usPerSec : ℤ := 1000000

/-! ## Quota engine (`src/core/db.py`, `check_and_consume_broadcast_quota`) -/

/-- One row of the `broadcast_actions` table.  `usedAt` is the time key of the
stored `used_at` string, `parseOk` records whether `parse_iso_utc` succeeds on
that string (rows written by the code itself always parse). -/
structure BRow where
  userId : ℤ
  usedAt : ℤ
  parseOk : Bool
  deriving Repr, DecidableEq

/-- The 2-day retention horizon (`timedelta(days=2)`) used by the
opportunistic `DELETE FROM broadcast_actions WHERE used_at < ?`,
in microseconds. -/
def retentionHorizonUs : ℤ := 2 * 86400 * usPerSec

/-- `rows[0]` of the `SELECT ... ORDER BY used_at ASC`: the first row carrying
the minimal `used_at` key (ties share the same key; which tied row comes first
is unspecified by SQLite, the model keeps the earliest stored one). -/
def minKeyRow : List BRow → Option BRow
  | [] => none
  | r :: rs =>
    match minKeyRow rs with
    | none => some r
    | some m => if r.usedAt ≤ m.usedAt then some r else some m

/-- `check_and_consume_broadcast_quota(user_id, max_actions, window_seconds)`
at wall-clock time `now`, acting on state `st` (the `broadcast_actions`
table).  Returns `none` when the call raises (`rows[0]` on an empty list),
otherwise `some ((allowed, retry_after), new_state)`. -/
def check_and_consume_broadcast_quota (st : List BRow) (uid maxActions windowSeconds : ℤ)
    (now : ℤ) : Option ((Bool × ℤ) × List BRow) :=
  let windowStart : ℤ := now - windowSeconds * usPerSec
  -- DELETE FROM broadcast_actions WHERE used_at < now - 2 days
  let kept := st.filter (fun r => decide (now - retentionHorizonUs ≤ r.usedAt))
  -- SELECT used_at ... WHERE user_id=? AND used_at >= window_start ORDER BY used_at ASC
  let rows := kept.filter (fun r => decide (r.userId = uid) && decide (windowStart ≤ r.usedAt))
  if (rows.length : ℤ) ≥ maxActions then
    match minKeyRow rows with
    | none => none                      -- IndexError: rows[0] of an empty list
    | some oldest =>
      if oldest.parseOk then
        -- retry_after = int((oldest_dt + window_seconds - now).total_seconds())
        let retry := (oldest.usedAt + windowSeconds * usPerSec - now).tdiv usPerSec
        -- conn.close() without commit: the retention DELETE is rolled back
        some ((false, max 1 retry), st)
      else
        some ((false, 30), st)          -- unparsable oldest timestamp
  else
    -- INSERT INTO broadcast_actions VALUES (user_id, now); conn.commit()
    some ((true, 0), kept ++ [⟨uid, now, true⟩])

example :
    check_and_consume_broadcast_quota [] 7 1 3600 0 =
      some ((true, 0), [⟨7, 0, true⟩]) := by decide

example :
    check_and_consume_broadcast_quota [⟨7, 0, true⟩] 7 1 3600 (10 * usPerSec) =
      some ((false, 3590), [⟨7, 0, true⟩]) := by decide

example :
    check_and_consume_broadcast_quota [⟨7, 0, false⟩] 7 1 3600 (10 * usPerSec) =
      some ((false, 30), [⟨7, 0, false⟩]) := by decide

/-- The oldest `broadcast_actions` row of `uid` inside the current window
(`used_at >= now - window_seconds`), as the claims speak of it. -/
def oldestInWindow (st : List BRow) (uid windowSeconds now : ℤ) : Option BRow :=
  minKeyRow (st.filter (fun r =>
    decide (r.userId = uid) && decide (now - windowSeconds * usPerSec ≤ r.usedAt)))

/-- A sequence of `check_and_consume_broadcast_quota` calls for one user with
fixed `(max_actions, window_seconds)`, at the listed wall-clock times.
Returns each call's time paired with its outcome (`none` = the call raised),
plus the final `broadcast_actions` table. -/
def runCalls (uid maxActions windowSeconds : ℤ) :
    List BRow → List ℤ → List (ℤ × Option (Bool × ℤ)) × List BRow
  | st, [] => ([], st)
  | st, n :: ns =>
    match check_and_consume_broadcast_quota st uid maxActions windowSeconds n with
    | none =>
      let rest := runCalls uid maxActions windowSeconds st ns
      ((n, none) :: rest.1, rest.2)
    | some (res, st1) =>
      let rest := runCalls uid maxActions windowSeconds st1 ns
      ((n, some res) :: rest.1, rest.2)

/-- Pure reference model of the sliding-window limiter: `A` is the list of
times of previously allowed calls; a call at time `n` is allowed iff fewer
than `max_actions` allowed times lie in `[n - window_seconds, n]`. -/
def slideModel (maxActions windowSeconds : ℤ) : List ℤ → List ℤ → List (ℤ × Bool)
  | _, [] => []
  | A, n :: ns =>
    let cnt := (A.filter (fun a => decide (n - windowSeconds * usPerSec ≤ a))).length
    if (cnt : ℤ) < maxActions then
      (n, true) :: slideModel maxActions windowSeconds (A ++ [n]) ns
    else
      (n, false) :: slideModel maxActions windowSeconds A ns

/-- The canonical `broadcast_actions` table reached from the empty one:
one row per allowed call time in `A`, minus those aged past the retention
horizon measured from the last allowed call time `L`. -/
def canonState (uid L : ℤ) (A : List ℤ) : List BRow :=
  (A.filter (fun a => decide (L - retentionHorizonUs ≤ a))).map (fun a => ⟨uid, a, true⟩)

theorem minKeyRow_mem : ∀ {l : List BRow} {r : BRow}, minKeyRow l = some r → r ∈ l := by
  intro l
  induction l with
  | nil => intro r h; simp [minKeyRow] at h
  | cons x xs ih =>
    intro r h
    unfold minKeyRow at h
    cases hm : minKeyRow xs with
    | none =>
      rw [hm] at h
      have h' : some x = some r := h
      cases h'
      exact List.mem_cons_self x xs
    | some m =>
      rw [hm] at h
      have h' : (if x.usedAt ≤ m.usedAt then some x else some m) = some r := h
      by_cases hle : x.usedAt ≤ m.usedAt
      · rw [if_pos hle] at h'; cases h'; exact List.mem_cons_self x xs
      · rw [if_neg hle] at h'; cases h'; exact List.mem_cons_of_mem _ (ih hm)

theorem minKeyRow_eq_none {l : List BRow} : minKeyRow l = none ↔ l = [] := by
  cases l with
  | nil => simp [minKeyRow]
  | cons x xs =>
    unfold minKeyRow
    cases minKeyRow xs with
    | none => simp
    | some m => by_cases h : x.usedAt ≤ m.usedAt <;> simp [h]

/-- Evaluating one quota call on a canonical table: the retention filter and
the window filter collapse to the single window filter on the allowed-times
list, provided the window is within the retention horizon. -/
theorem check_on_canonState (uid maxActions windowSeconds L n : ℤ) (A : List ℤ)
    (hW : windowSeconds * usPerSec ≤ retentionHorizonUs) (hLn : L ≤ n) :
    check_and_consume_broadcast_quota (canonState uid L A) uid maxActions windowSeconds n =
      (if ((A.filter (fun a => decide (n - windowSeconds * usPerSec ≤ a))).length : ℤ)
          < maxActions then
        some ((true, 0), canonState uid n (A ++ [n]))
      else
        match minKeyRow ((A.filter (fun a => decide (n - windowSeconds * usPerSec ≤ a))).map
            (fun a => ⟨uid, a, true⟩)) with
        | none => none
        | some oldest =>
          some ((false, max 1 ((oldest.usedAt + windowSeconds * usPerSec - n).tdiv usPerSec)),
            canonState uid L A)) := by
  have hkept : (canonState uid L A).filter
      (fun r => decide (n - retentionHorizonUs ≤ r.usedAt)) =
      (A.filter (fun a => decide (n - retentionHorizonUs ≤ a))).map
        (fun a => (⟨uid, a, true⟩ : BRow)) := by
    unfold canonState
    rw [List.filter_map, List.filter_filter]
    congr 1
    apply List.filter_congr
    intro a _
    show (decide (n - retentionHorizonUs ≤ a) && decide (L - retentionHorizonUs ≤ a)) =
      decide (n - retentionHorizonUs ≤ a)
    by_cases h : n - retentionHorizonUs ≤ a
    · have h2 : L - retentionHorizonUs ≤ a := by omega
      simp [h, h2]
    · simp [h]
  have hrows : ((A.filter (fun a => decide (n - retentionHorizonUs ≤ a))).map
        (fun a => (⟨uid, a, true⟩ : BRow))).filter
        (fun r => decide (r.userId = uid) && decide (n - windowSeconds * usPerSec ≤ r.usedAt)) =
      (A.filter (fun a => decide (n - windowSeconds * usPerSec ≤ a))).map
        (fun a => (⟨uid, a, true⟩ : BRow)) := by
    rw [List.filter_map, List.filter_filter]
    congr 1
    apply List.filter_congr
    intro a _
    show ((decide (uid = uid) && decide (n - windowSeconds * usPerSec ≤ a)) &&
        decide (n - retentionHorizonUs ≤ a)) = decide (n - windowSeconds * usPerSec ≤ a)
    by_cases h : n - windowSeconds * usPerSec ≤ a
    · have h2 : n - retentionHorizonUs ≤ a := by omega
      simp [h, h2]
    · simp [h]
  simp only [check_and_consume_broadcast_quota]
  rw [hkept, hrows, List.length_map]
  by_cases hc : ((A.filter (fun a => decide (n - windowSeconds * usPerSec ≤ a))).length : ℤ)
      < maxActions
  · rw [if_neg (by omega), if_pos hc]
    have hstep : canonState uid n (A ++ [n]) =
        (A.filter (fun a => decide (n - retentionHorizonUs ≤ a))).map
          (fun a => (⟨uid, a, true⟩ : BRow)) ++ [⟨uid, n, true⟩] := by
      unfold canonState
      rw [List.filter_append, List.map_append]
      congr 1
      have hnn : (0:ℤ) ≤ retentionHorizonUs := by unfold retentionHorizonUs usPerSec; omega
      simp only [List.filter_cons, List.filter_nil]
      rw [if_pos (by simp only [decide_eq_true_eq]; omega)]
      simp
    rw [hstep]
  · rw [if_pos (by omega), if_neg hc]
    cases hmk : minKeyRow ((A.filter (fun a => decide (n - windowSeconds * usPerSec ≤ a))).map
        (fun a => (⟨uid, a, true⟩ : BRow))) with
    | none => rfl
    | some oldest =>
      have hmem := minKeyRow_mem hmk
      have hpk : oldest.parseOk = true := by
        rcases List.mem_map.mp hmem with ⟨a, _, rfl⟩
        rfl
      show (if oldest.parseOk = true then
          some ((false, max 1 ((oldest.usedAt + windowSeconds * usPerSec - n).tdiv usPerSec)),
            canonState uid L A)
        else some ((false, 30), canonState uid L A)) =
        some ((false, max 1 ((oldest.usedAt + windowSeconds * usPerSec - n).tdiv usPerSec)),
          canonState uid L A)
      rw [if_pos hpk]

/-- Starting from a canonical table, a trace of quota calls at nondecreasing
times behaves exactly like the pure sliding-window model. -/
theorem runCalls_canon (uid maxActions windowSeconds : ℤ)
    (hW : windowSeconds * usPerSec ≤ retentionHorizonUs) :
    ∀ (ns A : List ℤ) (L : ℤ), (∀ a ∈ A, a ≤ L) → (∀ n ∈ ns, L ≤ n) →
      List.Sorted (· ≤ ·) ns →
      (runCalls uid maxActions windowSeconds (canonState uid L A) ns).1.map
          (fun p => (p.1, decide (p.2 = some (true, 0)))) =
        slideModel maxActions windowSeconds A ns := by
  intro ns
  induction ns with
  | nil => intro A L _ _ _; simp [runCalls, slideModel]
  | cons n ns ih =>
    intro A L hAL hLn hsort
    have hLn0 : L ≤ n := hLn n (List.mem_cons_self n ns)
    obtain ⟨hn_ns, hsort'⟩ := List.sorted_cons.mp hsort
    simp only [runCalls, check_on_canonState uid maxActions windowSeconds L n A hW hLn0]
    simp only [slideModel]
    by_cases hc : (((A.filter (fun a => decide (n - windowSeconds * usPerSec ≤ a))).length : ℤ)
        < maxActions)
    · rw [if_pos hc, if_pos hc]
      have hAL' : ∀ a ∈ A ++ [n], a ≤ n := by
        intro a ha
        rcases List.mem_append.mp ha with h | h
        · exact le_trans (hAL a h) hLn0
        · have : a = n := List.mem_singleton.mp h
          omega
      simp only [List.map_cons]
      congr 1
      exact ih (A ++ [n]) n hAL' hn_ns hsort'
    · rw [if_neg hc, if_neg hc]
      have htail := ih A L hAL (fun m hm => hLn m (List.mem_cons_of_mem _ hm)) hsort'
      cases hmk : minKeyRow ((A.filter (fun a => decide (n - windowSeconds * usPerSec ≤ a))).map
          (fun a => (⟨uid, a, true⟩ : BRow))) with
      | none =>
        simp only [List.map_cons]
        congr 1
      | some oldest =>
        simp only [List.map_cons]
        congr 1

/-- Sliding-window counting invariant of the pure model: the number of allowed
outputs inside the trailing interval `(t - W, t]`, plus the number of
previously allowed times inside it, never exceeds
`max maxActions (number of previously allowed times inside it)`. -/
theorem slideModel_count (maxActions windowSeconds t : ℤ) :
    ∀ (ns A : List ℤ),
      (((slideModel maxActions windowSeconds A ns).filter
          (fun p => p.2 && decide (t - windowSeconds * usPerSec < p.1) &&
            decide (p.1 ≤ t))).length : ℤ)
        + ((A.filter (fun a => decide (t - windowSeconds * usPerSec < a) &&
            decide (a ≤ t))).length : ℤ)
        ≤ max maxActions
            ((A.filter (fun a => decide (t - windowSeconds * usPerSec < a) &&
              decide (a ≤ t))).length : ℤ) := by
  intro ns
  induction ns with
  | nil => intro A; simp [slideModel]
  | cons n ns ih =>
    intro A
    simp only [slideModel]
    by_cases hc : ((A.filter (fun a => decide (n - windowSeconds * usPerSec ≤ a))).length : ℤ)
        < maxActions
    · rw [if_pos hc]
      by_cases hin : t - windowSeconds * usPerSec < n ∧ n ≤ t
      · -- the newly allowed call lies inside the trailing interval
        rw [List.filter_cons_of_pos (by simp [hin.1, hin.2])]
        have hsplit : ((A ++ [n]).filter (fun a => decide (t - windowSeconds * usPerSec < a) &&
            decide (a ≤ t))).length =
            (A.filter (fun a => decide (t - windowSeconds * usPerSec < a) &&
              decide (a ≤ t))).length + 1 := by
          rw [List.filter_append, List.length_append,
            List.filter_cons_of_pos (by simp [hin.1, hin.2])]
          simp
        have hsub : (A.filter (fun a => decide (t - windowSeconds * usPerSec < a) &&
            decide (a ≤ t))).length ≤
            (A.filter (fun a => decide (n - windowSeconds * usPerSec ≤ a))).length :=
          (List.monotone_filter_right A (by
            intro a ha
            simp only [Bool.and_eq_true, decide_eq_true_eq] at ha
            simp only [decide_eq_true_eq]
            omega)).length_le
        have := ih (A ++ [n])
        rw [hsplit] at this
        simp only [List.length_cons]
        omega
      · -- the newly allowed call lies outside the trailing interval
        rw [List.filter_cons_of_neg (by
          simp only [Bool.and_eq_true, decide_eq_true_eq, Bool.true_and, not_and]
          intro h1 h2
          exact hin ⟨h1, h2⟩)]
        have hsame : ((A ++ [n]).filter (fun a => decide (t - windowSeconds * usPerSec < a) &&
            decide (a ≤ t))) =
            A.filter (fun a => decide (t - windowSeconds * usPerSec < a) && decide (a ≤ t)) := by
          rw [List.filter_append, List.filter_cons_of_neg (by
            simp only [Bool.and_eq_true, decide_eq_true_eq, not_and]
            intro h1 h2
            exact hin ⟨h1, h2⟩)]
          simp
        have := ih (A ++ [n])
        rw [hsame] at this
        exact this
    · rw [if_neg hc]
      rw [List.filter_cons_of_neg (by simp)]
      exact ih A

/-- On a denied call whose rows all parse, `retry_after` is computed from the
oldest in-window row (the retention filter is transparent for the window
filter when the window fits inside the retention horizon). -/
theorem check_denied_retry (st : List BRow) (uid maxActions windowSeconds now ra : ℤ)
    (st' : List BRow)
    (hW : windowSeconds * usPerSec ≤ retentionHorizonUs)
    (hp : ∀ r ∈ st, r.parseOk = true)
    (hres : check_and_consume_broadcast_quota st uid maxActions windowSeconds now =
      some ((false, ra), st')) :
    ∃ r, oldestInWindow st uid windowSeconds now = some r ∧
      ra = max 1 ((r.usedAt + windowSeconds * usPerSec - now).tdiv usPerSec) := by
  have hrows : (st.filter (fun r => decide (now - retentionHorizonUs ≤ r.usedAt))).filter
      (fun r => decide (r.userId = uid) && decide (now - windowSeconds * usPerSec ≤ r.usedAt)) =
      st.filter (fun r => decide (r.userId = uid) &&
        decide (now - windowSeconds * usPerSec ≤ r.usedAt)) := by
    rw [List.filter_filter]
    apply List.filter_congr
    intro r _
    by_cases h : now - windowSeconds * usPerSec ≤ r.usedAt
    · have h2 : now - retentionHorizonUs ≤ r.usedAt := by omega
      by_cases hu : r.userId = uid <;> simp [h, h2, hu]
    · simp [h]
  simp only [check_and_consume_broadcast_quota] at hres
  rw [hrows] at hres
  by_cases hcond : ((st.filter (fun r => decide (r.userId = uid) &&
      decide (now - windowSeconds * usPerSec ≤ r.usedAt))).length : ℤ) ≥ maxActions
  · rw [if_pos hcond] at hres
    cases hmk : minKeyRow (st.filter (fun r => decide (r.userId = uid) &&
        decide (now - windowSeconds * usPerSec ≤ r.usedAt))) with
    | none =>
      rw [hmk] at hres
      exact absurd hres (by simp)
    | some oldest =>
      rw [hmk] at hres
      have hmem : oldest ∈ st := (List.mem_filter.mp (minKeyRow_mem hmk)).1
      have hpk : oldest.parseOk = true := hp oldest hmem
      have hres' : (if oldest.parseOk = true then
          some ((false, max 1 ((oldest.usedAt + windowSeconds * usPerSec - now).tdiv usPerSec)), st)
        else some ((false, 30), st)) = some ((false, ra), st') := hres
      rw [if_pos hpk] at hres'
      refine ⟨oldest, hmk, ?_⟩
      have h' := (Option.some.injEq _ _).mp hres'
      have h2 := congrArg Prod.fst h'
      have h3 := congrArg Prod.snd h2
      exact h3.symm
  · rw [if_neg hcond] at hres
    exact absurd hres (by simp)

/-- C1 (amended to windows within the 2-day retention horizon and a
non-negative quota): (1) over any trace of quota calls for one user at
nondecreasing times starting from an empty table, at most `max_actions` calls
return `allowed = true` inside any trailing `window_seconds` interval; and
(2) every denied call on a table whose timestamps all parse reports
`retry_after = max 1 (trunc(oldest_in_window.used_at + window_seconds - now))`. -/
theorem quota_sliding_window (uid maxActions windowSeconds : ℤ)
    (hW : windowSeconds * usPerSec ≤ retentionHorizonUs) (hA : 0 ≤ maxActions) :
    (∀ (ns : List ℤ) (t : ℤ), List.Sorted (· ≤ ·) ns →
      (((runCalls uid maxActions windowSeconds [] ns).1.filter
          (fun p => decide (p.2 = some (true, 0)) &&
            decide (t - windowSeconds * usPerSec < p.1) && decide (p.1 ≤ t))).length : ℤ)
        ≤ maxActions)
    ∧ (∀ (st : List BRow) (now ra : ℤ) (st' : List BRow), (∀ r ∈ st, r.parseOk = true) →
        check_and_consume_broadcast_quota st uid maxActions windowSeconds now =
          some ((false, ra), st') →
        ∃ r, oldestInWindow st uid windowSeconds now = some r ∧
          ra = max 1 ((r.usedAt + windowSeconds * usPerSec - now).tdiv usPerSec)) := by
  constructor
  · intro ns t hsort
    cases ns with
    | nil => simp [runCalls]; omega
    | cons n ns' =>
      have hLn : ∀ m ∈ n :: ns', n ≤ m := by
        intro m hm
        rcases List.mem_cons.mp hm with rfl | hm'
        · exact le_refl m
        · exact (List.sorted_cons.mp hsort).1 m hm'
      have hbridge := runCalls_canon uid maxActions windowSeconds hW (n :: ns') [] n
        (by intro a ha; simp at ha) hLn hsort
      have hcanon : canonState uid n [] = [] := rfl
      rw [hcanon] at hbridge
      have hlen : ((runCalls uid maxActions windowSeconds [] (n :: ns')).1.filter
          (fun p => decide (p.2 = some (true, 0)) &&
            decide (t - windowSeconds * usPerSec < p.1) && decide (p.1 ≤ t))).length =
          ((slideModel maxActions windowSeconds [] (n :: ns')).filter
            (fun q => q.2 && decide (t - windowSeconds * usPerSec < q.1) &&
              decide (q.1 ≤ t))).length := by
        rw [← hbridge, List.filter_map, List.length_map]
        congr 1
      rw [hlen]
      have := slideModel_count maxActions windowSeconds t (n :: ns') []
      simp only [List.filter_nil, List.length_nil] at this
      omega
  · intro st now ra st' hp hres
    exact check_denied_retry st uid maxActions windowSeconds now ra st' hW hp hres

/-- C1 fails as frozen when `window_seconds` exceeds the 2-day retention
horizon: with `max_actions = 1` and a 3-day window, two calls 2 days + 1 s
apart are both allowed, because the first action is deleted by the retention
housekeeping while still inside the window. -/
theorem quota_sliding_window_counterexample :
    ((runCalls 7 1 259200 [] [0, 172801 * usPerSec]).1.filter
        (fun p => decide (p.2 = some (true, 0)) &&
          decide (172801 * usPerSec - 259200 * usPerSec < p.1) &&
          decide (p.1 ≤ 172801 * usPerSec))).length = 2 := by decide

theorem quota_sliding_window_witness :
    (((runCalls 7 5 3600 [] [0, usPerSec, 2 * usPerSec]).1.filter
        (fun p => decide (p.2 = some (true, 0)) &&
          decide (2 * usPerSec - 3600 * usPerSec < p.1) &&
          decide (p.1 ≤ 2 * usPerSec))).length : ℤ) ≤ 5 :=
  (quota_sliding_window 7 5 3600 (by decide) (by decide)).1
    [0, usPerSec, 2 * usPerSec] (2 * usPerSec) (by decide)

/-- C6 (amended): the retention `DELETE` is executed on every call but is
*persisted only when the request is allowed* — the resulting table then
contains no row older than the 2-day horizon; on a denied request the
connection is closed without committing, so the stored table is returned
unchanged. -/
theorem retention_pruning (st : List BRow) (uid maxActions windowSeconds now : ℤ) :
    (∀ st', check_and_consume_broadcast_quota st uid maxActions windowSeconds now =
        some ((true, 0), st') →
      st' = st.filter (fun r => decide (now - retentionHorizonUs ≤ r.usedAt)) ++
          [⟨uid, now, true⟩] ∧
        ∀ r ∈ st', now - retentionHorizonUs ≤ r.usedAt)
    ∧ (∀ b ra st', check_and_consume_broadcast_quota st uid maxActions windowSeconds now =
        some ((b, ra), st') → b = false → st' = st) := by
  have hhor : (0:ℤ) ≤ retentionHorizonUs := by unfold retentionHorizonUs usPerSec; omega
  constructor
  · intro st' hres
    simp only [check_and_consume_broadcast_quota] at hres
    by_cases hcond : (((st.filter (fun r => decide (now - retentionHorizonUs ≤ r.usedAt))).filter
        (fun r => decide (r.userId = uid) &&
          decide (now - windowSeconds * usPerSec ≤ r.usedAt))).length : ℤ) ≥ maxActions
    · rw [if_pos hcond] at hres
      cases hmk : minKeyRow ((st.filter (fun r => decide (now - retentionHorizonUs ≤ r.usedAt))).filter
          (fun r => decide (r.userId = uid) &&
            decide (now - windowSeconds * usPerSec ≤ r.usedAt))) with
      | none => rw [hmk] at hres; exact absurd hres (by simp)
      | some oldest =>
        rw [hmk] at hres
        have hres' : (if oldest.parseOk = true then
            some ((false, max 1 ((oldest.usedAt + windowSeconds * usPerSec - now).tdiv usPerSec)),
              st)
          else some ((false, 30), st)) = some ((true, 0), st') := hres
        by_cases hpk : oldest.parseOk = true
        · rw [if_pos hpk] at hres'; exact absurd hres' (by simp)
        · rw [if_neg hpk] at hres'; exact absurd hres' (by simp)
    · rw [if_neg hcond] at hres
      have h' := (Option.some.injEq _ _).mp hres
      have hst : st' = st.filter (fun r => decide (now - retentionHorizonUs ≤ r.usedAt)) ++
          [⟨uid, now, true⟩] := (congrArg Prod.snd h').symm
      refine ⟨hst, ?_⟩
      intro r hr
      rw [hst] at hr
      rcases List.mem_append.mp hr with h | h
      · have := (List.mem_filter.mp h).2
        simpa using this
      · have hr' : r = (⟨uid, now, true⟩ : BRow) := List.mem_singleton.mp h
        subst hr'
        show now - retentionHorizonUs ≤ now
        omega
  · intro b ra st' hres hb
    subst hb
    simp only [check_and_consume_broadcast_quota] at hres
    by_cases hcond : (((st.filter (fun r => decide (now - retentionHorizonUs ≤ r.usedAt))).filter
        (fun r => decide (r.userId = uid) &&
          decide (now - windowSeconds * usPerSec ≤ r.usedAt))).length : ℤ) ≥ maxActions
    · rw [if_pos hcond] at hres
      cases hmk : minKeyRow ((st.filter (fun r => decide (now - retentionHorizonUs ≤ r.usedAt))).filter
          (fun r => decide (r.userId = uid) &&
            decide (now - windowSeconds * usPerSec ≤ r.usedAt))) with
      | none => rw [hmk] at hres; exact absurd hres (by simp)
      | some oldest =>
        rw [hmk] at hres
        have hres' : (if oldest.parseOk = true then
            some ((false, max 1 ((oldest.usedAt + windowSeconds * usPerSec - now).tdiv usPerSec)),
              st)
          else some ((false, 30), st)) = some ((false, ra), st') := hres
        by_cases hpk : oldest.parseOk = true
        · rw [if_pos hpk] at hres'
          exact ((Prod.mk.injEq _ _ _ _).mp ((Option.some.injEq _ _).mp hres')).2.symm
        · rw [if_neg hpk] at hres'
          exact ((Prod.mk.injEq _ _ _ _).mp ((Option.some.injEq _ _).mp hres')).2.symm
    · rw [if_neg hcond] at hres
      exact absurd hres (by simp)

/-- C6 fails as frozen: on this denied call the row that is 200000 s old
(beyond the 2-day = 172800 s horizon) is still present in the table returned
after the call — the housekeeping `DELETE` was rolled back by closing the
connection without committing. -/
theorem retention_pruning_counterexample :
    check_and_consume_broadcast_quota
        [⟨7, -200000 * usPerSec, true⟩, ⟨7, -10, true⟩] 7 1 3600 0 =
      some ((false, 3599), [⟨7, -200000 * usPerSec, true⟩, ⟨7, -10, true⟩]) ∧
    (-200000 * usPerSec : ℤ) < 0 - retentionHorizonUs := by decide

theorem retention_pruning_witness :
    [⟨7, -100000 * usPerSec, true⟩] ++ [(⟨7, 0, true⟩ : BRow)] =
        ([⟨7, -100000 * usPerSec, true⟩, ⟨7, -300000 * usPerSec, true⟩].filter
          (fun r => decide ((0:ℤ) - retentionHorizonUs ≤ r.usedAt)) ++ [⟨7, 0, true⟩]) ∧
      ∀ r ∈ [⟨7, -100000 * usPerSec, true⟩] ++ [(⟨7, 0, true⟩ : BRow)],
        (0:ℤ) - retentionHorizonUs ≤ r.usedAt := by
  have h := (retention_pruning
      [⟨7, -100000 * usPerSec, true⟩, ⟨7, -300000 * usPerSec, true⟩] 7 1 3600 0).1
  exact h ([⟨7, -100000 * usPerSec, true⟩] ++ [⟨7, 0, true⟩]) (by decide)

/-- C10: when the call is denied and the oldest in-window row's `used_at`
fails to parse, the function returns the fixed pair `(False, 30)` and the
stored table is unchanged. -/
theorem quota_unparsable_retry (st : List BRow) (uid maxActions windowSeconds now : ℤ)
    (m : BRow)
    (hmk : minKeyRow ((st.filter (fun r => decide (now - retentionHorizonUs ≤ r.usedAt))).filter
      (fun r => decide (r.userId = uid) &&
        decide (now - windowSeconds * usPerSec ≤ r.usedAt))) = some m)
    (hpk : m.parseOk = false)
    (hc : (((st.filter (fun r => decide (now - retentionHorizonUs ≤ r.usedAt))).filter
      (fun r => decide (r.userId = uid) &&
        decide (now - windowSeconds * usPerSec ≤ r.usedAt))).length : ℤ) ≥ maxActions) :
    check_and_consume_broadcast_quota st uid maxActions windowSeconds now =
      some ((false, 30), st) := by
  simp only [check_and_consume_broadcast_quota]
  rw [if_pos hc, hmk]
  show (if m.parseOk = true then
      some ((false, max 1 ((m.usedAt + windowSeconds * usPerSec - now).tdiv usPerSec)), st)
    else some ((false, 30), st)) = some ((false, 30), st)
  rw [if_neg (by simp [hpk])]

theorem quota_unparsable_retry_witness :
    check_and_consume_broadcast_quota [⟨7, 0, false⟩] 7 1 3600 (10 * usPerSec) =
      some ((false, 30), [⟨7, 0, false⟩]) :=
  quota_unparsable_retry [⟨7, 0, false⟩] 7 1 3600 (10 * usPerSec) ⟨7, 0, false⟩
    (by decide) (by decide) (by decide)

/-! ## Reputation store (`src/core/db.py`) and reaction handlers
(`src/cogs/reputation.py`, `ReputationCog`)

`rep_users`, `rep_messages` and `rep_votes` rows carry their SQL columns;
stored ISO timestamps are modelled by their parse result (`createdAt = none`
means `parse_iso_utc` fails on the stored string).  Each handler receives the
single wall-clock instant `now` at which the event is processed. -/

structure RepUser where
  userId : ℤ
  rep : ℤ
  userName : String
  lastUpdated : ℤ
  deriving Repr, DecidableEq

structure RepMsg where
  messageId : ℤ
  authorId : ℤ
  authorName : String
  createdAt : Option ℤ
  deriving Repr, DecidableEq

structure RepVote where
  messageId : ℤ
  voterId : ℤ
  vote : ℤ
  deriving Repr, DecidableEq

structure RepState where
  users : List RepUser
  messages : List RepMsg
  votes : List RepVote
  lastPruneAt : Option ℤ
  deriving Repr, DecidableEq

/-- `REP_TTL_SECONDS = 4 * 60 * 60` from `src/core/db.py`. -/
def REP_TTL_SECONDS : ℤ := 4 * 60 * 60

/-- `get_rep`: the stored score, or 0 when no `rep_users` row exists. -/
def get_rep (st : RepState) (uid : ℤ) : ℤ :=
  match st.users.find? (fun u => decide (u.userId = uid)) with
  | some u => u.rep
  | none => 0

/-- The row update of `adjust_rep`'s `UPDATE rep_users SET rep=?, last_updated=?
WHERE user_id=?`. -/
def adjustUser (uid delta now : ℤ) (u : RepUser) : RepUser :=
  if u.userId = uid then { u with rep := u.rep + delta, lastUpdated := now } else u

/-- `adjust_rep`: adds `delta` to the stored score when a row exists,
does nothing otherwise. -/
def adjust_rep (st : RepState) (uid delta now : ℤ) : RepState :=
  match st.users.find? (fun u => decide (u.userId = uid)) with
  | none => st
  | some _ => { st with users := st.users.map (adjustUser uid delta now) }

/-- `get_rep_message`: lookup by `message_id` primary key. -/
def get_rep_message (st : RepState) (mid : ℤ) : Option RepMsg :=
  st.messages.find? (fun m => decide (m.messageId = mid))

/-- `get_vote`: the stored vote value of `(message_id, voter_id)`, if any. -/
def get_vote (st : RepState) (mid vid : ℤ) : Option ℤ :=
  (st.votes.find? (fun v => decide (v.messageId = mid) && decide (v.voterId = vid))).map
    (fun v => v.vote)

/-- `set_vote`: `INSERT OR REPLACE` on the `(message_id, voter_id)` key. -/
def set_vote (st : RepState) (mid vid value : ℤ) : RepState :=
  { st with votes := st.votes.filter (fun v =>
      !(decide (v.messageId = mid) && decide (v.voterId = vid))) ++ [⟨mid, vid, value⟩] }

/-- `delete_vote`: `DELETE FROM rep_votes WHERE message_id=? AND voter_id=?`. -/
def delete_vote (st : RepState) (mid vid : ℤ) : RepState :=
  { st with votes := st.votes.filter (fun v =>
      !(decide (v.messageId = mid) && decide (v.voterId = vid))) }

/-- `delete_rep_message`: deletes the message row and all its votes. -/
def delete_rep_message (st : RepState) (mid : ℤ) : RepState :=
  { st with votes := st.votes.filter (fun v => !decide (v.messageId = mid)),
            messages := st.messages.filter (fun m => !decide (m.messageId = mid)) }

/-- `within_rep_window`: true iff the timestamp parses and lies within the
4-hour TTL of `now`; an unparsable timestamp counts as outside the window. -/
def within_rep_window (createdAt : Option ℤ) (now : ℤ) : Bool :=
  match createdAt with
  | none => false
  | some t => decide (now - t ≤ REP_TTL_SECONDS * usPerSec)

/-- The expiry condition of `prune_rep`: the timestamp parses *and* is
strictly older than the TTL (`t and (now - t).total_seconds() > REP_TTL_SECONDS`). -/
def pruneExpired (m : RepMsg) (now : ℤ) : Bool :=
  match m.createdAt with
  | none => false
  | some t => decide (now - t > REP_TTL_SECONDS * usPerSec)

/-- `prune_rep`: deletes every expired message and its votes, then stamps the
maintenance marker. -/
def prune_rep (st : RepState) (now : ℤ) : RepState :=
  let expired := (st.messages.filter (fun m => pruneExpired m now)).map (fun m => m.messageId)
  { st with
    votes := st.votes.filter (fun v => !decide (v.messageId ∈ expired)),
    messages := st.messages.filter (fun m => !decide (m.messageId ∈ expired)),
    lastPruneAt := some now }

def THUMBS_UP : String := "👍"

def THUMBS_DOWN : String := "👎"

/-- `1 if emoji == THUMBS_UP else -1` (evaluated only after the emoji has been
checked to be one of the two). -/
def voteValue (emoji : String) : ℤ :=
  if emoji = THUMBS_UP then 1 else -1

/-- `ReputationCog.on_raw_reaction_add`: `botId` is the bot's own user id
(the handler ignores its own reactions), `emoji` the reaction emoji. -/
def on_raw_reaction_add (st : RepState) (botId : Option ℤ) (mid uid : ℤ) (emoji : String)
    (now : ℤ) : RepState :=
  if botId = some uid then st
  else if emoji ≠ THUMBS_UP ∧ emoji ≠ THUMBS_DOWN then st
  else
    match get_rep_message st mid with
    | none => st
    | some msg =>
      if ¬ within_rep_window msg.createdAt now then
        prune_rep (delete_rep_message st mid) now
      else if uid = msg.authorId then st
      else
        let new_vote : ℤ := voteValue emoji
        let old_vote := get_vote st mid uid
        if old_vote = some new_vote then st
        else
          prune_rep (adjust_rep (set_vote st mid uid new_vote) msg.authorId
            (new_vote - old_vote.getD 0) now) now

/-- `ReputationCog.on_raw_reaction_remove` (note: no bot-id guard in the
source). -/
def on_raw_reaction_remove (st : RepState) (mid uid : ℤ) (emoji : String) (now : ℤ) : RepState :=
  if emoji ≠ THUMBS_UP ∧ emoji ≠ THUMBS_DOWN then st
  else
    match get_rep_message st mid with
    | none => st
    | some msg =>
      if ¬ within_rep_window msg.createdAt now then
        prune_rep (delete_rep_message st mid) now
      else
        let removed_vote : ℤ := voteValue emoji
        if get_vote st mid uid ≠ some removed_vote then st
        else
          prune_rep (adjust_rep (delete_vote st mid uid) msg.authorId (-removed_vote) now) now

/-! ### Generic `find?` helpers -/

theorem find?_filter_of_imp {α} {p q : α → Bool} (h : ∀ a, p a = true → q a = true) :
    ∀ l : List α, (l.filter q).find? p = l.find? p := by
  intro l
  induction l with
  | nil => simp
  | cons a l ih =>
    by_cases hq : q a = true
    · rw [List.filter_cons_of_pos hq]
      by_cases hp : p a = true
      · rw [List.find?_cons_of_pos _ hp, List.find?_cons_of_pos _ hp]
      · rw [List.find?_cons_of_neg _ (by simp [hp]), List.find?_cons_of_neg _ (by simp [hp]), ih]
    · rw [List.filter_cons_of_neg (by simp [hq]), ih]
      have hp : p a = false := by
        cases hpa : p a
        · rfl
        · exact absurd (h a hpa) hq
      rw [List.find?_cons_of_neg _ (by simp [hp])]

theorem find?_filter_none {α} {p : α → Bool} (q : α → Bool) {l : List α}
    (h : l.find? p = none) : (l.filter q).find? p = none := by
  rw [List.find?_eq_none] at h ⊢
  intro x hx
  exact h x (List.mem_filter.mp hx).1

theorem find?_map_pres {α} {p : α → Bool} {f : α → α} (h : ∀ a, p (f a) = p a) (l : List α) :
    (l.map f).find? p = (l.find? p).map f := by
  rw [List.find?_map]
  have hpf : (p ∘ f) = p := funext h
  rw [hpf]

/-! ### Frame lemmas for the reputation store operations -/

theorem get_rep_prune (st : RepState) (now w : ℤ) :
    get_rep (prune_rep st now) w = get_rep st w := rfl

theorem get_rep_set_vote (st : RepState) (mid vid value w : ℤ) :
    get_rep (set_vote st mid vid value) w = get_rep st w := rfl

theorem get_rep_delete_vote (st : RepState) (mid vid w : ℤ) :
    get_rep (delete_vote st mid vid) w = get_rep st w := rfl

theorem get_rep_delete_msg (st : RepState) (mid w : ℤ) :
    get_rep (delete_rep_message st mid) w = get_rep st w := rfl

theorem adjustUser_userId (uid delta now : ℤ) (u : RepUser) :
    (adjustUser uid delta now u).userId = u.userId := by
  unfold adjustUser
  by_cases h : u.userId = uid
  · rw [if_pos h]
  · rw [if_neg h]

theorem find?_map_adjustUser (uid delta now w : ℤ) :
    ∀ l : List RepUser,
      (l.map (adjustUser uid delta now)).find? (fun u => decide (u.userId = w)) =
        (l.find? (fun u => decide (u.userId = w))).map (adjustUser uid delta now) := by
  intro l
  induction l with
  | nil => simp
  | cons a l ih =>
    by_cases ha : a.userId = w
    · rw [List.map_cons, List.find?_cons_of_pos _ (by simp [adjustUser_userId, ha]),
        List.find?_cons_of_pos _ (by simp [ha])]
      rfl
    · rw [List.map_cons, List.find?_cons_of_neg _ (by simp [adjustUser_userId, ha]),
        List.find?_cons_of_neg _ (by simp [ha]), ih]

theorem users_adjust_find? (st : RepState) (uid delta now w : ℤ) :
    ((adjust_rep st uid delta now).users.find? (fun u => decide (u.userId = w))).isSome =
      (st.users.find? (fun u => decide (u.userId = w))).isSome := by
  unfold adjust_rep
  cases h : st.users.find? (fun u => decide (u.userId = uid)) with
  | none => rfl
  | some u =>
    show ((st.users.map (adjustUser uid delta now)).find?
      (fun u => decide (u.userId = w))).isSome = _
    rw [find?_map_adjustUser]
    cases st.users.find? (fun u => decide (u.userId = w)) <;> rfl

theorem get_rep_adjust_self (st : RepState) (uid delta now : ℤ)
    (hacct : (st.users.find? (fun u => decide (u.userId = uid))).isSome = true) :
    get_rep (adjust_rep st uid delta now) uid = get_rep st uid + delta := by
  unfold adjust_rep
  cases h : st.users.find? (fun u => decide (u.userId = uid)) with
  | none => rw [h] at hacct; simp at hacct
  | some u =>
    have hu : u.userId = uid := by
      have := List.find?_some h
      simpa using this
    unfold get_rep
    show (match (st.users.map (adjustUser uid delta now)).find?
        (fun u => decide (u.userId = uid)) with
      | some u => u.rep
      | none => 0) = _
    rw [find?_map_adjustUser, h]
    show (adjustUser uid delta now u).rep = u.rep + delta
    unfold adjustUser
    rw [if_pos hu]

theorem get_rep_adjust_other (st : RepState) (uid delta now w : ℤ) (hw : w ≠ uid) :
    get_rep (adjust_rep st uid delta now) w = get_rep st w := by
  unfold adjust_rep
  cases h : st.users.find? (fun u => decide (u.userId = uid)) with
  | none => rfl
  | some u =>
    unfold get_rep
    show (match (st.users.map (adjustUser uid delta now)).find?
        (fun u => decide (u.userId = w)) with
      | some u => u.rep
      | none => 0) = _
    rw [find?_map_adjustUser]
    cases h2 : st.users.find? (fun u => decide (u.userId = w)) with
    | none => rfl
    | some v =>
      have hv : v.userId = w := by
        have := List.find?_some h2
        simpa using this
      show (adjustUser uid delta now v).rep = v.rep
      unfold adjustUser
      rw [if_neg (by rw [hv]; exact hw)]

theorem adjust_rep_no_account (st : RepState) (uid delta now : ℤ)
    (h : st.users.find? (fun u => decide (u.userId = uid)) = none) :
    adjust_rep st uid delta now = st := by
  unfold adjust_rep
  rw [h]

theorem votes_adjust (st : RepState) (uid delta now : ℤ) :
    (adjust_rep st uid delta now).votes = st.votes := by
  unfold adjust_rep
  cases st.users.find? (fun u => decide (u.userId = uid)) <;> rfl

theorem messages_adjust (st : RepState) (uid delta now : ℤ) :
    (adjust_rep st uid delta now).messages = st.messages := by
  unfold adjust_rep
  cases st.users.find? (fun u => decide (u.userId = uid)) <;> rfl

theorem get_vote_set_vote (st : RepState) (mid vid value : ℤ) :
    get_vote (set_vote st mid vid value) mid vid = some value := by
  unfold get_vote set_vote
  rw [List.find?_append]
  have h1 : (st.votes.filter (fun v =>
      !(decide (v.messageId = mid) && decide (v.voterId = vid)))).find?
      (fun v => decide (v.messageId = mid) && decide (v.voterId = vid)) = none := by
    rw [List.find?_eq_none]
    intro x hx
    have hq := (List.mem_filter.mp hx).2
    simp only [Bool.not_eq_true', Bool.and_eq_false_iff] at hq
    simp only [Bool.and_eq_true, decide_eq_true_eq, not_and]
    intro h1 h2
    rcases hq with hq | hq <;> simp [h1, h2] at hq
  rw [h1, Option.none_or]
  simp

theorem get_vote_delete_vote (st : RepState) (mid vid : ℤ) :
    get_vote (delete_vote st mid vid) mid vid = none := by
  unfold get_vote delete_vote
  have h1 : (st.votes.filter (fun v =>
      !(decide (v.messageId = mid) && decide (v.voterId = vid)))).find?
      (fun v => decide (v.messageId = mid) && decide (v.voterId = vid)) = none := by
    rw [List.find?_eq_none]
    intro x hx
    have hq := (List.mem_filter.mp hx).2
    simp only [Bool.not_eq_true', Bool.and_eq_false_iff] at hq
    simp only [Bool.and_eq_true, decide_eq_true_eq, not_and]
    intro h1 h2
    rcases hq with hq | hq <;> simp [h1, h2] at hq
  rw [h1]
  rfl

theorem get_msg_set_vote (st : RepState) (mid vid value m : ℤ) :
    get_rep_message (set_vote st mid vid value) m = get_rep_message st m := rfl

theorem get_msg_delete_vote (st : RepState) (mid vid m : ℤ) :
    get_rep_message (delete_vote st mid vid) m = get_rep_message st m := rfl

theorem get_msg_adjust (st : RepState) (uid delta now m : ℤ) :
    get_rep_message (adjust_rep st uid delta now) m = get_rep_message st m := by
  unfold adjust_rep
  cases st.users.find? (fun u => decide (u.userId = uid)) <;> rfl

theorem get_vote_adjust (st : RepState) (uid delta now mid vid : ℤ) :
    get_vote (adjust_rep st uid delta now) mid vid = get_vote st mid vid := by
  unfold adjust_rep
  cases st.users.find? (fun u => decide (u.userId = uid)) <;> rfl

/-- A message that the handler just saw inside the TTL window never has its id
in the prune list, provided `message_id` really is a key (the PRIMARY KEY
invariant of `rep_messages`). -/
theorem mid_not_expired (st : RepState) (mid : ℤ) (msg : RepMsg) (now : ℤ)
    (hnodup : (st.messages.map RepMsg.messageId).Nodup)
    (hmsg : get_rep_message st mid = some msg)
    (hexp : pruneExpired msg now = false) :
    mid ∉ (st.messages.filter (fun m => pruneExpired m now)).map RepMsg.messageId := by
  intro hin
  rcases List.mem_map.mp hin with ⟨m', hm', hid⟩
  have hm'mem : m' ∈ st.messages := (List.mem_filter.mp hm').1
  have hm'exp : pruneExpired m' now = true := (List.mem_filter.mp hm').2
  have hmsgmem : msg ∈ st.messages := List.mem_of_find?_eq_some hmsg
  have hmsgid : msg.messageId = mid := by
    have := List.find?_some hmsg
    simpa using this
  have heq : m' = msg :=
    List.inj_on_of_nodup_map hnodup hm'mem hmsgmem (by rw [hid, hmsgid])
  rw [heq, hexp] at hm'exp
  exact Bool.false_ne_true hm'exp

/-- Pruning keeps a message whose id is not on the prune list. -/
theorem get_msg_prune (st : RepState) (now mid : ℤ)
    (hnotin : mid ∉ (st.messages.filter (fun m => pruneExpired m now)).map RepMsg.messageId) :
    get_rep_message (prune_rep st now) mid = get_rep_message st mid := by
  unfold get_rep_message prune_rep
  exact find?_filter_of_imp (by
    intro m hm
    simp only [decide_eq_true_eq] at hm
    simp only [Bool.not_eq_true', decide_eq_false_iff_not]
    rw [hm]
    exact hnotin) st.messages

/-- Pruning keeps the votes of a message whose id is not on the prune list. -/
theorem get_vote_prune (st : RepState) (now mid vid : ℤ)
    (hnotin : mid ∉ (st.messages.filter (fun m => pruneExpired m now)).map RepMsg.messageId) :
    get_vote (prune_rep st now) mid vid = get_vote st mid vid := by
  unfold get_vote prune_rep
  rw [find?_filter_of_imp (by
    intro v hv
    simp only [Bool.and_eq_true, decide_eq_true_eq] at hv
    simp only [Bool.not_eq_true', decide_eq_false_iff_not]
    rw [hv.1]
    exact hnotin) st.votes]

/-! ### Branch evaluation of the reaction handlers -/

theorem on_add_eval (st : RepState) (botId : Option ℤ) (mid uid : ℤ) (emoji : String)
    (msg : RepMsg) (now : ℤ)
    (hbot : botId ≠ some uid)
    (hemoji : emoji = THUMBS_UP ∨ emoji = THUMBS_DOWN)
    (hmsg : get_rep_message st mid = some msg)
    (hwin : within_rep_window msg.createdAt now = true)
    (hvoter : uid ≠ msg.authorId) :
    on_raw_reaction_add st botId mid uid emoji now =
      (if get_vote st mid uid = some (voteValue emoji) then st
       else
         prune_rep (adjust_rep (set_vote st mid uid (voteValue emoji)) msg.authorId
           (voteValue emoji - (get_vote st mid uid).getD 0) now) now) := by
  unfold on_raw_reaction_add
  rw [if_neg hbot, if_neg (by tauto), hmsg]
  show (if ¬ within_rep_window msg.createdAt now then
      prune_rep (delete_rep_message st mid) now
    else if uid = msg.authorId then st
    else
      let new_vote : ℤ := voteValue emoji
      let old_vote := get_vote st mid uid
      if old_vote = some new_vote then st
      else
        prune_rep (adjust_rep (set_vote st mid uid new_vote) msg.authorId
          (new_vote - old_vote.getD 0) now) now) = _
  rw [if_neg (by simp [hwin]), if_neg hvoter]

theorem on_add_eval_expired (st : RepState) (botId : Option ℤ) (mid uid : ℤ) (emoji : String)
    (msg : RepMsg) (now : ℤ)
    (hbot : botId ≠ some uid)
    (hemoji : emoji = THUMBS_UP ∨ emoji = THUMBS_DOWN)
    (hmsg : get_rep_message st mid = some msg)
    (hwin : within_rep_window msg.createdAt now = false) :
    on_raw_reaction_add st botId mid uid emoji now =
      prune_rep (delete_rep_message st mid) now := by
  unfold on_raw_reaction_add
  rw [if_neg hbot, if_neg (by tauto), hmsg]
  show (if ¬ within_rep_window msg.createdAt now then
      prune_rep (delete_rep_message st mid) now
    else if uid = msg.authorId then st
    else
      let new_vote : ℤ := voteValue emoji
      let old_vote := get_vote st mid uid
      if old_vote = some new_vote then st
      else
        prune_rep (adjust_rep (set_vote st mid uid new_vote) msg.authorId
          (new_vote - old_vote.getD 0) now) now) = _
  rw [if_pos (by simp [hwin])]

theorem on_remove_eval (st : RepState) (mid uid : ℤ) (emoji : String) (msg : RepMsg) (now : ℤ)
    (hemoji : emoji = THUMBS_UP ∨ emoji = THUMBS_DOWN)
    (hmsg : get_rep_message st mid = some msg)
    (hwin : within_rep_window msg.createdAt now = true) :
    on_raw_reaction_remove st mid uid emoji now =
      (if get_vote st mid uid ≠ some (voteValue emoji) then st
       else
         prune_rep (adjust_rep (delete_vote st mid uid) msg.authorId
           (-(voteValue emoji)) now) now) := by
  unfold on_raw_reaction_remove
  rw [if_neg (by tauto), hmsg]
  show (if ¬ within_rep_window msg.createdAt now then
      prune_rep (delete_rep_message st mid) now
    else
      let removed_vote : ℤ := voteValue emoji
      if get_vote st mid uid ≠ some removed_vote then st
      else
        prune_rep (adjust_rep (delete_vote st mid uid) msg.authorId
          (-removed_vote) now) now) = _
  rw [if_neg (by simp [hwin])]

theorem on_remove_eval_expired (st : RepState) (mid uid : ℤ) (emoji : String) (msg : RepMsg)
    (now : ℤ)
    (hemoji : emoji = THUMBS_UP ∨ emoji = THUMBS_DOWN)
    (hmsg : get_rep_message st mid = some msg)
    (hwin : within_rep_window msg.createdAt now = false) :
    on_raw_reaction_remove st mid uid emoji now =
      prune_rep (delete_rep_message st mid) now := by
  unfold on_raw_reaction_remove
  rw [if_neg (by tauto), hmsg]
  show (if ¬ within_rep_window msg.createdAt now then
      prune_rep (delete_rep_message st mid) now
    else
      let removed_vote : ℤ := voteValue emoji
      if get_vote st mid uid ≠ some removed_vote then st
      else
        prune_rep (adjust_rep (delete_vote st mid uid) msg.authorId
          (-removed_vote) now) now) = _
  rw [if_pos (by simp [hwin])]

/-- Every `on_raw_reaction_add` event either returns the state unchanged,
lazily deletes an expired message, or applies a vote transition. -/
theorem on_add_cases (st : RepState) (botId : Option ℤ) (mid uid : ℤ) (emoji : String)
    (now : ℤ) :
    on_raw_reaction_add st botId mid uid emoji now = st ∨
    (∃ msg, get_rep_message st mid = some msg ∧
      within_rep_window msg.createdAt now = false ∧
      on_raw_reaction_add st botId mid uid emoji now =
        prune_rep (delete_rep_message st mid) now) ∨
    (∃ msg, get_rep_message st mid = some msg ∧
      within_rep_window msg.createdAt now = true ∧ uid ≠ msg.authorId ∧
      get_vote st mid uid ≠ some (voteValue emoji) ∧
      on_raw_reaction_add st botId mid uid emoji now =
        prune_rep (adjust_rep (set_vote st mid uid (voteValue emoji)) msg.authorId
          (voteValue emoji - (get_vote st mid uid).getD 0) now) now) := by
  by_cases hbot : botId = some uid
  · left; unfold on_raw_reaction_add; rw [if_pos hbot]
  by_cases hemoji : emoji = THUMBS_UP ∨ emoji = THUMBS_DOWN
  · cases hmsg : get_rep_message st mid with
    | none =>
      left
      unfold on_raw_reaction_add
      rw [if_neg hbot, if_neg (by tauto), hmsg]
    | some msg =>
      cases hwin : within_rep_window msg.createdAt now with
      | false =>
        right; left
        exact ⟨msg, rfl, hwin, on_add_eval_expired st botId mid uid emoji msg now hbot hemoji
          hmsg hwin⟩
      | true =>
        by_cases hvoter : uid = msg.authorId
        · left
          unfold on_raw_reaction_add
          rw [if_neg hbot, if_neg (by tauto), hmsg]
          show (if ¬ within_rep_window msg.createdAt now then
              prune_rep (delete_rep_message st mid) now
            else if uid = msg.authorId then st
            else
              let new_vote : ℤ := voteValue emoji
              let old_vote := get_vote st mid uid
              if old_vote = some new_vote then st
              else
                prune_rep (adjust_rep (set_vote st mid uid new_vote) msg.authorId
                  (new_vote - old_vote.getD 0) now) now) = st
          rw [if_neg (by simp [hwin]), if_pos hvoter]
        · by_cases hold : get_vote st mid uid = some (voteValue emoji)
          · left
            rw [on_add_eval st botId mid uid emoji msg now hbot hemoji hmsg hwin hvoter,
              if_pos hold]
          · right; right
            exact ⟨msg, rfl, hwin, hvoter, hold,
              by rw [on_add_eval st botId mid uid emoji msg now hbot hemoji hmsg hwin hvoter,
                if_neg hold]⟩
  · left
    unfold on_raw_reaction_add
    rw [if_neg hbot, if_pos (by tauto)]

/-- Every `on_raw_reaction_remove` event either returns the state unchanged,
lazily deletes an expired message, or withdraws a matching vote. -/
theorem on_remove_cases (st : RepState) (mid uid : ℤ) (emoji : String) (now : ℤ) :
    on_raw_reaction_remove st mid uid emoji now = st ∨
    (∃ msg, get_rep_message st mid = some msg ∧
      within_rep_window msg.createdAt now = false ∧
      on_raw_reaction_remove st mid uid emoji now =
        prune_rep (delete_rep_message st mid) now) ∨
    (∃ msg, get_rep_message st mid = some msg ∧
      within_rep_window msg.createdAt now = true ∧
      get_vote st mid uid = some (voteValue emoji) ∧
      on_raw_reaction_remove st mid uid emoji now =
        prune_rep (adjust_rep (delete_vote st mid uid) msg.authorId
          (-(voteValue emoji)) now) now) := by
  by_cases hemoji : emoji = THUMBS_UP ∨ emoji = THUMBS_DOWN
  · cases hmsg : get_rep_message st mid with
    | none =>
      left
      unfold on_raw_reaction_remove
      rw [if_neg (by tauto), hmsg]
    | some msg =>
      cases hwin : within_rep_window msg.createdAt now with
      | false =>
        right; left
        exact ⟨msg, rfl, hwin, on_remove_eval_expired st mid uid emoji msg now hemoji hmsg hwin⟩
      | true =>
        by_cases hold : get_vote st mid uid = some (voteValue emoji)
        · right; right
          refine ⟨msg, rfl, hwin, hold, ?_⟩
          rw [on_remove_eval st mid uid emoji msg now hemoji hmsg hwin, if_neg (by simp [hold])]
        · left
          rw [on_remove_eval st mid uid emoji msg now hemoji hmsg hwin, if_pos hold]
  · left
    unfold on_raw_reaction_remove
    rw [if_pos (by tauto)]

theorem votes_prune (st : RepState) (now : ℤ) :
    (prune_rep st now).votes = st.votes.filter (fun v =>
      !decide (v.messageId ∈ (st.messages.filter
        (fun m => pruneExpired m now)).map (fun m => m.messageId))) := rfl

theorem messages_prune (st : RepState) (now : ℤ) :
    (prune_rep st now).messages = st.messages.filter (fun m =>
      !decide (m.messageId ∈ (st.messages.filter
        (fun m => pruneExpired m now)).map (fun m => m.messageId))) := rfl

theorem votes_delete_msg (st : RepState) (mid : ℤ) :
    (delete_rep_message st mid).votes =
      st.votes.filter (fun v => !decide (v.messageId = mid)) := rfl

theorem messages_delete_msg (st : RepState) (mid : ℤ) :
    (delete_rep_message st mid).messages =
      st.messages.filter (fun m => !decide (m.messageId = mid)) := rfl

theorem users_set_vote (st : RepState) (mid vid value : ℤ) :
    (set_vote st mid vid value).users = st.users := rfl

theorem messages_set_vote (st : RepState) (mid vid value : ℤ) :
    (set_vote st mid vid value).messages = st.messages := rfl

theorem users_delete_vote (st : RepState) (mid vid : ℤ) :
    (delete_vote st mid vid).users = st.users := rfl

theorem messages_delete_vote (st : RepState) (mid vid : ℤ) :
    (delete_vote st mid vid).messages = st.messages := rfl

theorem users_prune (st : RepState) (now : ℤ) :
    (prune_rep st now).users = st.users := rfl

/-- A message seen inside the TTL window is not selected by `prune_rep`'s
expiry condition at the same instant. -/
theorem pruneExpired_false_of_within (msg : RepMsg) (now : ℤ)
    (hwin : within_rep_window msg.createdAt now = true) :
    pruneExpired msg now = false := by
  unfold within_rep_window at hwin
  unfold pruneExpired
  cases hc : msg.createdAt with
  | none => rfl
  | some t =>
    rw [hc] at hwin
    simp only [decide_eq_true_eq] at hwin
    simp only [decide_eq_false_iff_not]
    omega

theorem voteValue_up : voteValue THUMBS_UP = 1 := by
  unfold voteValue
  rw [if_pos rfl]

theorem voteValue_down : voteValue THUMBS_DOWN = -1 := by
  unfold voteValue
  rw [if_neg (by decide)]

/-- After the lazy stale-row deletion, no vote of the message remains. -/
theorem get_vote_after_delete_msg (st : RepState) (mid vid now : ℤ) :
    get_vote (prune_rep (delete_rep_message st mid) now) mid vid = none := by
  unfold get_vote
  rw [votes_prune, votes_delete_msg]
  have hinner : (st.votes.filter (fun v => !decide (v.messageId = mid))).find?
      (fun v => decide (v.messageId = mid) && decide (v.voterId = vid)) = none := by
    rw [List.find?_eq_none]
    intro x hx
    have hx1 := (List.mem_filter.mp hx).2
    simp only [Bool.not_eq_true', decide_eq_false_iff_not] at hx1
    simp [hx1]
  rw [find?_filter_none _ hinner]
  rfl

/-- After the lazy stale-row deletion, the message row itself is gone. -/
theorem get_msg_after_delete_msg (st : RepState) (mid now : ℤ) :
    get_rep_message (prune_rep (delete_rep_message st mid) now) mid = none := by
  unfold get_rep_message
  rw [messages_prune, messages_delete_msg]
  rw [List.find?_eq_none]
  intro x hx
  have hx1 := (List.mem_filter.mp (List.mem_filter.mp hx).1).2
  simp only [Bool.not_eq_true', decide_eq_false_iff_not] at hx1
  simp [hx1]

/-- The PRIMARY KEY invariant of `rep_messages` survives pruning. -/
theorem nodup_prune (st : RepState) (now : ℤ)
    (hnodup : (st.messages.map RepMsg.messageId).Nodup) :
    ((prune_rep st now).messages.map RepMsg.messageId).Nodup := by
  rw [messages_prune]
  exact hnodup.sublist (List.Sublist.map _ (List.filter_sublist _))

/-- State facts after the add handler applies a vote transition. -/
theorem on_add_applied_state (st : RepState) (botId : Option ℤ) (mid uid : ℤ) (emoji : String)
    (msg : RepMsg) (now : ℤ)
    (hbot : botId ≠ some uid)
    (hemoji : emoji = THUMBS_UP ∨ emoji = THUMBS_DOWN)
    (hmsg : get_rep_message st mid = some msg)
    (hwin : within_rep_window msg.createdAt now = true)
    (hvoter : uid ≠ msg.authorId)
    (hacct : (st.users.find? (fun u => decide (u.userId = msg.authorId))).isSome = true)
    (hnodup : (st.messages.map RepMsg.messageId).Nodup)
    (hold : get_vote st mid uid ≠ some (voteValue emoji)) :
    get_vote (on_raw_reaction_add st botId mid uid emoji now) mid uid
        = some (voteValue emoji) ∧
      get_rep (on_raw_reaction_add st botId mid uid emoji now) msg.authorId
        = get_rep st msg.authorId + (voteValue emoji - (get_vote st mid uid).getD 0) ∧
      get_rep_message (on_raw_reaction_add st botId mid uid emoji now) mid = some msg ∧
      ((on_raw_reaction_add st botId mid uid emoji now).users.find?
        (fun u => decide (u.userId = msg.authorId))).isSome = true ∧
      ((on_raw_reaction_add st botId mid uid emoji now).messages.map RepMsg.messageId).Nodup := by
  rw [on_add_eval st botId mid uid emoji msg now hbot hemoji hmsg hwin hvoter, if_neg hold]
  have hYu : (set_vote st mid uid (voteValue emoji)).users = st.users := rfl
  have hYm : (set_vote st mid uid (voteValue emoji)).messages = st.messages := rfl
  have hXm : (adjust_rep (set_vote st mid uid (voteValue emoji)) msg.authorId
      (voteValue emoji - (get_vote st mid uid).getD 0) now).messages = st.messages := by
    rw [messages_adjust, hYm]
  have hexp : pruneExpired msg now = false := pruneExpired_false_of_within msg now hwin
  have hnotin := mid_not_expired st mid msg now hnodup hmsg hexp
  have hnotinX : mid ∉ ((adjust_rep (set_vote st mid uid (voteValue emoji)) msg.authorId
      (voteValue emoji - (get_vote st mid uid).getD 0) now).messages.filter
        (fun m => pruneExpired m now)).map RepMsg.messageId := by
    rw [hXm]; exact hnotin
  have hacctY : ((set_vote st mid uid (voteValue emoji)).users.find?
      (fun u => decide (u.userId = msg.authorId))).isSome = true := by
    rw [hYu]; exact hacct
  refine ⟨?_, ?_, ?_, ?_, ?_⟩
  · rw [get_vote_prune _ _ _ _ hnotinX, get_vote_adjust, get_vote_set_vote]
  · rw [get_rep_prune, get_rep_adjust_self _ _ _ _ hacctY, get_rep_set_vote]
  · rw [get_msg_prune _ _ _ hnotinX, get_msg_adjust, get_msg_set_vote]
    exact hmsg
  · rw [users_prune, users_adjust_find?, hYu]
    exact hacct
  · apply nodup_prune
    rw [hXm]
    exact hnodup

/-- State facts after the remove handler withdraws a matching vote. -/
theorem on_remove_applied_state (st : RepState) (mid uid : ℤ) (emoji : String)
    (msg : RepMsg) (now : ℤ)
    (hemoji : emoji = THUMBS_UP ∨ emoji = THUMBS_DOWN)
    (hmsg : get_rep_message st mid = some msg)
    (hwin : within_rep_window msg.createdAt now = true)
    (hacct : (st.users.find? (fun u => decide (u.userId = msg.authorId))).isSome = true)
    (hnodup : (st.messages.map RepMsg.messageId).Nodup)
    (hold : get_vote st mid uid = some (voteValue emoji)) :
    get_vote (on_raw_reaction_remove st mid uid emoji now) mid uid = none ∧
      get_rep (on_raw_reaction_remove st mid uid emoji now) msg.authorId
        = get_rep st msg.authorId - voteValue emoji := by
  rw [on_remove_eval st mid uid emoji msg now hemoji hmsg hwin, if_neg (by simp [hold])]
  have hYm : (delete_vote st mid uid).messages = st.messages := rfl
  have hYu : (delete_vote st mid uid).users = st.users := rfl
  have hXm : (adjust_rep (delete_vote st mid uid) msg.authorId
      (-(voteValue emoji)) now).messages = st.messages := by
    rw [messages_adjust, hYm]
  have hexp : pruneExpired msg now = false := pruneExpired_false_of_within msg now hwin
  have hnotin := mid_not_expired st mid msg now hnodup hmsg hexp
  have hnotinX : mid ∉ ((adjust_rep (delete_vote st mid uid) msg.authorId
      (-(voteValue emoji)) now).messages.filter
        (fun m => pruneExpired m now)).map RepMsg.messageId := by
    rw [hXm]; exact hnotin
  have hacctY : ((delete_vote st mid uid).users.find?
      (fun u => decide (u.userId = msg.authorId))).isSome = true := by
    rw [hYu]; exact hacct
  constructor
  · rw [get_vote_prune _ _ _ _ hnotinX, get_vote_adjust, get_vote_delete_vote]
  · rw [get_rep_prune, get_rep_adjust_self _ _ _ _ hacctY, get_rep_delete_vote]
    omega

/-- A sample store used by concrete witnesses: author `1` has an account at
score 0 and message `100` (author `1`) is tracked since time 0. -/
def sampleState : RepState := ⟨[⟨1, 0, "a", 0⟩], [⟨100, 1, "a", some 0⟩], [], none⟩

def sampleMsg : RepMsg := ⟨100, 1, "a", some 0⟩

/-- C2 (amended): for a tracked, unexpired message, a voter other than the
author, and an author holding a `rep_users` row: (a) re-casting the stored
value is an exact no-op; (b) otherwise the Vote row is upserted and the
author's score moves by `new - (prior or 0)`; (c) casting the same value twice
nets zero after the second call; (d) casting +1 then -1 from no prior vote
nets a total of **-1** relative to baseline (the flip itself applies -2). -/
theorem vote_cast_transitions (st : RepState) (botId : Option ℤ) (mid uid : ℤ) (emoji : String)
    (msg : RepMsg) (now now₂ : ℤ)
    (hbot : botId ≠ some uid)
    (hemoji : emoji = THUMBS_UP ∨ emoji = THUMBS_DOWN)
    (hmsg : get_rep_message st mid = some msg)
    (hwin : within_rep_window msg.createdAt now = true)
    (hwin₂ : within_rep_window msg.createdAt now₂ = true)
    (hvoter : uid ≠ msg.authorId)
    (hacct : (st.users.find? (fun u => decide (u.userId = msg.authorId))).isSome = true)
    (hnodup : (st.messages.map RepMsg.messageId).Nodup) :
    (get_vote st mid uid = some (voteValue emoji) →
      on_raw_reaction_add st botId mid uid emoji now = st) ∧
    (get_vote st mid uid ≠ some (voteValue emoji) →
      get_vote (on_raw_reaction_add st botId mid uid emoji now) mid uid
          = some (voteValue emoji) ∧
        get_rep (on_raw_reaction_add st botId mid uid emoji now) msg.authorId
          = get_rep st msg.authorId + (voteValue emoji - (get_vote st mid uid).getD 0)) ∧
    (on_raw_reaction_add (on_raw_reaction_add st botId mid uid emoji now)
        botId mid uid emoji now₂ =
      on_raw_reaction_add st botId mid uid emoji now) ∧
    (get_vote st mid uid = none →
      get_rep (on_raw_reaction_add (on_raw_reaction_add st botId mid uid THUMBS_UP now)
          botId mid uid THUMBS_DOWN now₂) msg.authorId
        = get_rep st msg.authorId - 1) := by
  refine ⟨?_, ?_, ?_, ?_⟩
  · intro hold
    rw [on_add_eval st botId mid uid emoji msg now hbot hemoji hmsg hwin hvoter, if_pos hold]
  · intro hold
    obtain ⟨h1, h2, _, _, _⟩ := on_add_applied_state st botId mid uid emoji msg now
      hbot hemoji hmsg hwin hvoter hacct hnodup hold
    exact ⟨h1, h2⟩
  · by_cases hold : get_vote st mid uid = some (voteValue emoji)
    · have h1 : on_raw_reaction_add st botId mid uid emoji now = st := by
        rw [on_add_eval st botId mid uid emoji msg now hbot hemoji hmsg hwin hvoter, if_pos hold]
      rw [h1, on_add_eval st botId mid uid emoji msg now₂ hbot hemoji hmsg hwin₂ hvoter,
        if_pos hold]
    · obtain ⟨hv1, _, hmsg1, hacct1, hnodup1⟩ := on_add_applied_state st botId mid uid emoji msg
        now hbot hemoji hmsg hwin hvoter hacct hnodup hold
      rw [on_add_eval (on_raw_reaction_add st botId mid uid emoji now) botId mid uid emoji msg
        now₂ hbot hemoji hmsg1 hwin₂ hvoter, if_pos hv1]
  · intro hnone
    have hold1 : get_vote st mid uid ≠ some (voteValue THUMBS_UP) := by
      rw [hnone]; simp
    obtain ⟨hv1, hrep1, hmsg1, hacct1, hnodup1⟩ := on_add_applied_state st botId mid uid
      THUMBS_UP msg now hbot (Or.inl rfl) hmsg hwin hvoter hacct hnodup hold1
    have hold2 : get_vote (on_raw_reaction_add st botId mid uid THUMBS_UP now) mid uid
        ≠ some (voteValue THUMBS_DOWN) := by
      rw [hv1, voteValue_up, voteValue_down]
      simp
    obtain ⟨hv2, hrep2, _, _, _⟩ := on_add_applied_state
      (on_raw_reaction_add st botId mid uid THUMBS_UP now) botId mid uid THUMBS_DOWN msg now₂
      hbot (Or.inr rfl) hmsg1 hwin₂ hvoter hacct1 hnodup1 hold2
    rw [hrep2, hrep1, hnone, hv1, voteValue_up, voteValue_down]
    simp only [Option.getD_none, Option.getD_some]
    omega

/-- C2 as frozen is false in its last part: from a zero-score baseline,
casting +1 then -1 on the same tracked message leaves the author at **-1**,
not -2 (the second call applies delta -2, but the first applied +1). -/
theorem vote_cast_transitions_counterexample :
    get_rep sampleState 1 = 0 ∧
      get_rep (on_raw_reaction_add (on_raw_reaction_add sampleState none 100 2 THUMBS_UP
        (10 * usPerSec)) none 100 2 THUMBS_DOWN (20 * usPerSec)) 1 = -1 := by decide

theorem vote_cast_transitions_witness :
    get_vote (on_raw_reaction_add sampleState none 100 2 THUMBS_UP (10 * usPerSec)) 100 2
        = some (voteValue THUMBS_UP) ∧
      get_rep (on_raw_reaction_add sampleState none 100 2 THUMBS_UP (10 * usPerSec))
          sampleMsg.authorId
        = get_rep sampleState sampleMsg.authorId
            + (voteValue THUMBS_UP - (get_vote sampleState 100 2).getD 0) :=
  (vote_cast_transitions sampleState none 100 2 THUMBS_UP sampleMsg (10 * usPerSec)
    (20 * usPerSec) (by decide) (Or.inl rfl) (by decide) (by decide) (by decide) (by decide)
    (by decide) (by decide)).2.1 (by decide)

/-- C3: for a tracked, unexpired message whose author holds an account row:
a withdrawal whose expected value does not match the stored vote is an exact
no-op; a matching withdrawal deletes the Vote row and adjusts the author's
score by exactly `-expected`; and casting +1 then withdrawing with expected
value +1 nets zero author score change. -/
theorem vote_withdraw (st : RepState) (botId : Option ℤ) (mid uid : ℤ) (emoji : String)
    (msg : RepMsg) (now now₂ : ℤ)
    (hbot : botId ≠ some uid)
    (hemoji : emoji = THUMBS_UP ∨ emoji = THUMBS_DOWN)
    (hmsg : get_rep_message st mid = some msg)
    (hwin : within_rep_window msg.createdAt now = true)
    (hwin₂ : within_rep_window msg.createdAt now₂ = true)
    (hvoter : uid ≠ msg.authorId)
    (hacct : (st.users.find? (fun u => decide (u.userId = msg.authorId))).isSome = true)
    (hnodup : (st.messages.map RepMsg.messageId).Nodup) :
    (get_vote st mid uid ≠ some (voteValue emoji) →
      on_raw_reaction_remove st mid uid emoji now = st) ∧
    (get_vote st mid uid = some (voteValue emoji) →
      get_vote (on_raw_reaction_remove st mid uid emoji now) mid uid = none ∧
        get_rep (on_raw_reaction_remove st mid uid emoji now) msg.authorId
          = get_rep st msg.authorId - voteValue emoji) ∧
    (get_vote st mid uid = none →
      get_rep (on_raw_reaction_remove
          (on_raw_reaction_add st botId mid uid THUMBS_UP now) mid uid THUMBS_UP now₂)
          msg.authorId
        = get_rep st msg.authorId) := by
  refine ⟨?_, ?_, ?_⟩
  · intro hold
    rw [on_remove_eval st mid uid emoji msg now hemoji hmsg hwin, if_pos hold]
  · intro hold
    exact on_remove_applied_state st mid uid emoji msg now hemoji hmsg hwin hacct hnodup hold
  · intro hnone
    have hold1 : get_vote st mid uid ≠ some (voteValue THUMBS_UP) := by
      rw [hnone]; simp
    obtain ⟨hv1, hrep1, hmsg1, hacct1, hnodup1⟩ := on_add_applied_state st botId mid uid
      THUMBS_UP msg now hbot (Or.inl rfl) hmsg hwin hvoter hacct hnodup hold1
    obtain ⟨_, hrep2⟩ := on_remove_applied_state
      (on_raw_reaction_add st botId mid uid THUMBS_UP now) mid uid THUMBS_UP msg now₂
      (Or.inl rfl) hmsg1 hwin₂ hacct1 hnodup1 hv1
    rw [hrep2, hrep1, hnone]
    simp only [Option.getD_none]
    omega

theorem vote_withdraw_witness :
    get_vote (on_raw_reaction_remove ⟨[⟨1, 0, "a", 0⟩], [⟨100, 1, "a", some 0⟩],
        [⟨100, 2, 1⟩], none⟩ 100 2 THUMBS_UP (10 * usPerSec)) 100 2 = none ∧
      get_rep (on_raw_reaction_remove ⟨[⟨1, 0, "a", 0⟩], [⟨100, 1, "a", some 0⟩],
          [⟨100, 2, 1⟩], none⟩ 100 2 THUMBS_UP (10 * usPerSec)) sampleMsg.authorId
        = get_rep ⟨[⟨1, 0, "a", 0⟩], [⟨100, 1, "a", some 0⟩], [⟨100, 2, 1⟩], none⟩
            sampleMsg.authorId - voteValue THUMBS_UP :=
  (vote_withdraw ⟨[⟨1, 0, "a", 0⟩], [⟨100, 1, "a", some 0⟩], [⟨100, 2, 1⟩], none⟩ none 100 2
    THUMBS_UP sampleMsg (10 * usPerSec) (20 * usPerSec) (by decide) (Or.inl rfl) (by decide)
    (by decide) (by decide) (by decide) (by decide) (by decide)).2.1 (by decide)

/-- C5: a reaction by the message's own author never changes the author's
score and records no Vote row, whatever the emoji, the bot id, or the age of
the message. -/
theorem self_vote_ignored (st : RepState) (botId : Option ℤ) (mid : ℤ) (emoji : String)
    (msg : RepMsg) (now : ℤ)
    (hmsg : get_rep_message st mid = some msg) :
    get_rep (on_raw_reaction_add st botId mid msg.authorId emoji now) msg.authorId
        = get_rep st msg.authorId ∧
      (get_vote st mid msg.authorId = none →
        get_vote (on_raw_reaction_add st botId mid msg.authorId emoji now) mid msg.authorId
          = none) := by
  rcases on_add_cases st botId mid msg.authorId emoji now with
    heq | ⟨msg', hmsg', hwin', heq⟩ | ⟨msg', hmsg', hwin', hvoter', hold', heq⟩
  · rw [heq]
    exact ⟨rfl, fun h => h⟩
  · rw [heq]
    exact ⟨by rw [get_rep_prune, get_rep_delete_msg],
      fun _ => get_vote_after_delete_msg st mid msg.authorId now⟩
  · have hmm : msg' = msg := by
      rw [hmsg] at hmsg'
      exact (Option.some.inj hmsg').symm
    rw [hmm] at hvoter'
    exact absurd rfl hvoter'

theorem self_vote_ignored_witness :
    get_rep (on_raw_reaction_add sampleState none 100 sampleMsg.authorId THUMBS_UP
        (10 * usPerSec)) sampleMsg.authorId = get_rep sampleState sampleMsg.authorId ∧
      (get_vote sampleState 100 sampleMsg.authorId = none →
        get_vote (on_raw_reaction_add sampleState none 100 sampleMsg.authorId THUMBS_UP
          (10 * usPerSec)) 100 sampleMsg.authorId = none) :=
  self_vote_ignored sampleState none 100 THUMBS_UP sampleMsg (10 * usPerSec) (by decide)

/-- C4 (amended): a reaction event on a message older than the TTL never
changes any reputation score, and for the vote emojis (add events not
originating from the bot itself) the stale message row and all its votes are
deleted while handling the event; a non-vote emoji (or the bot's own add
event) leaves the stale row in place. -/
theorem ttl_expiry (st : RepState) (botId : Option ℤ) (mid uid : ℤ) (emoji : String)
    (msg : RepMsg) (t now : ℤ)
    (hmsg : get_rep_message st mid = some msg)
    (hts : msg.createdAt = some t)
    (hexp : now - t > REP_TTL_SECONDS * usPerSec) :
    (∀ w, get_rep (on_raw_reaction_add st botId mid uid emoji now) w = get_rep st w) ∧
    (∀ w, get_rep (on_raw_reaction_remove st mid uid emoji now) w = get_rep st w) ∧
    ((emoji = THUMBS_UP ∨ emoji = THUMBS_DOWN) → botId ≠ some uid →
      get_rep_message (on_raw_reaction_add st botId mid uid emoji now) mid = none ∧
        ∀ w, get_vote (on_raw_reaction_add st botId mid uid emoji now) mid w = none) ∧
    ((emoji = THUMBS_UP ∨ emoji = THUMBS_DOWN) →
      get_rep_message (on_raw_reaction_remove st mid uid emoji now) mid = none ∧
        ∀ w, get_vote (on_raw_reaction_remove st mid uid emoji now) mid w = none) := by
  have hwinfalse : within_rep_window msg.createdAt now = false := by
    unfold within_rep_window
    rw [hts]
    simp only [decide_eq_false_iff_not]
    omega
  refine ⟨?_, ?_, ?_, ?_⟩
  · intro w
    rcases on_add_cases st botId mid uid emoji now with
      heq | ⟨msg', hmsg', hwin', heq⟩ | ⟨msg', hmsg', hwin', _, _, heq⟩
    · rw [heq]
    · rw [heq, get_rep_prune, get_rep_delete_msg]
    · have hmm : msg' = msg := by
        rw [hmsg] at hmsg'
        exact (Option.some.inj hmsg').symm
      rw [hmm, hwinfalse] at hwin'
      exact absurd hwin' (by simp)
  · intro w
    rcases on_remove_cases st mid uid emoji now with
      heq | ⟨msg', hmsg', hwin', heq⟩ | ⟨msg', hmsg', hwin', _, heq⟩
    · rw [heq]
    · rw [heq, get_rep_prune, get_rep_delete_msg]
    · have hmm : msg' = msg := by
        rw [hmsg] at hmsg'
        exact (Option.some.inj hmsg').symm
      rw [hmm, hwinfalse] at hwin'
      exact absurd hwin' (by simp)
  · intro hemoji hbot
    rw [on_add_eval_expired st botId mid uid emoji msg now hbot hemoji hmsg hwinfalse]
    exact ⟨get_msg_after_delete_msg st mid now,
      fun w => get_vote_after_delete_msg st mid w now⟩
  · intro hemoji
    rw [on_remove_eval_expired st mid uid emoji msg now hemoji hmsg hwinfalse]
    exact ⟨get_msg_after_delete_msg st mid now,
      fun w => get_vote_after_delete_msg st mid w now⟩

/-- C4 as frozen is false for non-vote reaction events: a reaction with an
emoji other than 👍/👎 on an expired tracked message leaves the stale row in
place (the handler returns before the expiry check). -/
theorem ttl_expiry_counterexample :
    get_rep_message (on_raw_reaction_add sampleState none 100 2 "x"
      ((REP_TTL_SECONDS + 1) * usPerSec)) 100 = some sampleMsg := by decide

theorem ttl_expiry_witness :
    get_rep_message (on_raw_reaction_add sampleState none 100 2 THUMBS_UP
        ((REP_TTL_SECONDS + 1) * usPerSec)) 100 = none ∧
      ∀ w, get_vote (on_raw_reaction_add sampleState none 100 2 THUMBS_UP
        ((REP_TTL_SECONDS + 1) * usPerSec)) 100 w = none :=
  (ttl_expiry sampleState none 100 2 THUMBS_UP sampleMsg 0 ((REP_TTL_SECONDS + 1) * usPerSec)
    (by decide) (by decide) (by decide)).2.2.1 (Or.inl rfl) (by decide)

/-- C9: `adjust_rep` for a user with no `rep_users` row is a silent no-op:
the store is returned unchanged (in particular no account row is created),
and a subsequent `get_rep` still returns 0. -/
theorem adjust_rep_missing_account (st : RepState) (uid delta now : ℤ)
    (h : st.users.find? (fun u => decide (u.userId = uid)) = none) :
    adjust_rep st uid delta now = st ∧
      get_rep (adjust_rep st uid delta now) uid = 0 ∧ get_rep st uid = 0 := by
  have hnoop := adjust_rep_no_account st uid delta now h
  have hzero : get_rep st uid = 0 := by
    unfold get_rep
    rw [h]
  exact ⟨hnoop, by rw [hnoop]; exact hzero, hzero⟩

theorem adjust_rep_missing_account_witness :
    adjust_rep ⟨[⟨1, 0, "a", 0⟩], [], [], none⟩ 5 3 0 = ⟨[⟨1, 0, "a", 0⟩], [], [], none⟩ ∧
      get_rep (adjust_rep ⟨[⟨1, 0, "a", 0⟩], [], [], none⟩ 5 3 0) 5 = 0 ∧
        get_rep ⟨[⟨1, 0, "a", 0⟩], [], [], none⟩ 5 = 0 :=
  adjust_rep_missing_account ⟨[⟨1, 0, "a", 0⟩], [], [], none⟩ 5 3 0 (by decide)

/-! ## Tier curve (`src/cogs/reputation.py`) and rate-limit table
(`src/cogs/broadcasts.py`)

The Python floats `LOG_BASE` and `LOG_SCALE = 10 / (LOG_BASE - 1)` are
modelled by the exact rational values of the source literals and formula.
`rep_level` computes `floor(log(rep / LOG_SCALE + 1, LOG_BASE))` clamped to
`[0, len(TIER_NAMES) - 1]`; over an ordered field the clamped floored
logarithm of `y ≥ 1` is characterised without logarithms by
`max 0 (min 5 ⌊log_B y⌋) = l ↔ B^l ≤ y` (for the nested comparisons below),
which the embedding uses directly.  Python's `round` (banker's) and Mathlib's
`round` (half-up) agree except on exact half-integers, which the six
threshold values are not. -/

def TIER_NAMES : List String := ["Recruit", "Regular", "Trusted", "Veteran", "Elite", "Legend"]

def LOG_BASE : ℚ := 1.8667452839806598

def LOG_SCALE : ℚ := 10 / (LOG_BASE - 1)

/-- `rep_threshold(level)`: rep required to reach a given tier level. -/
def rep_threshold (level : ℤ) : ℤ :=
  max 0 (round (LOG_SCALE * (LOG_BASE ^ (max 0 level).toNat - 1)))

/-- The clamped floored logarithm `max 0 (min (len(TIER_NAMES) - 1)
⌊log_B y⌋)`, written with the power comparisons that characterise it. -/
def levelOfY (y : ℚ) : ℕ :=
  if LOG_BASE ^ 5 ≤ y then 5
  else if LOG_BASE ^ 4 ≤ y then 4
  else if LOG_BASE ^ 3 ≤ y then 3
  else if LOG_BASE ^ 2 ≤ y then 2
  else if LOG_BASE ^ 1 ≤ y then 1
  else 0

/-- `rep_level(rep)`: 0 for `rep <= 0`, otherwise the clamped floored
logarithm of `rep / LOG_SCALE + 1`. -/
def rep_level (rep : ℤ) : ℕ :=
  if rep ≤ 0 then 0
  else levelOfY ((rep : ℚ) / LOG_SCALE + 1)

/-- `_limits_for_rep` from `src/cogs/broadcasts.py`: the reputation-tiered
quota table `(max_actions, window_seconds)`. -/
def _limits_for_rep (rep : ℤ) : ℤ × ℤ :=
  if rep ≤ -30 then (1, 4 * 60 * 60)
  else if rep ≤ -2 then (1, 60 * 60)
  else if rep ≤ 9 then (5, 60 * 60)
  else if rep ≤ 25 then (15, 60 * 60)
  else (30, 60 * 60)

example : rep_threshold 1 = 10 := by norm_num [rep_threshold, LOG_SCALE, LOG_BASE, round_eq]

example : rep_level 9 = 0 ∧ rep_level 10 = 1 := by
  norm_num [rep_level, levelOfY, LOG_SCALE, LOG_BASE]

/-- C8: the quota table is monotone — a higher score never gets fewer actions
or a longer window. -/
theorem limits_for_rep_monotone (a b : ℤ) (hab : a ≤ b) :
    (_limits_for_rep a).1 ≤ (_limits_for_rep b).1 ∧
      (_limits_for_rep b).2 ≤ (_limits_for_rep a).2 := by
  unfold _limits_for_rep
  split_ifs <;> dsimp only <;> omega

theorem limits_for_rep_monotone_witness :
    (_limits_for_rep (-50)).1 ≤ (_limits_for_rep 10).1 ∧
      (_limits_for_rep 10).2 ≤ (_limits_for_rep (-50)).2 :=
  limits_for_rep_monotone (-50) 10 (by decide)

theorem hLOG_BASE_pos : (1 : ℚ) < LOG_BASE := by norm_num [LOG_BASE]

theorem hLOG_SCALE_pos : (0 : ℚ) < LOG_SCALE := by norm_num [LOG_SCALE, LOG_BASE]

theorem levelOfY_mono {y₁ y₂ : ℚ} (h : y₁ ≤ y₂) : levelOfY y₁ ≤ levelOfY y₂ := by
  unfold levelOfY
  split_ifs <;> first | omega | linarith

theorem levelOfY_pow_le {y : ℚ} (hy : 1 ≤ y) : LOG_BASE ^ (levelOfY y) ≤ y := by
  unfold levelOfY
  split_ifs with h5 h4 h3 h2 h1
  · exact h5
  · exact h4
  · exact h3
  · exact h2
  · exact h1
  · simpa using hy

theorem round_le_of_le {x y : ℚ} (h : x ≤ y) : round x ≤ round y := by
  rw [round_eq, round_eq]
  exact Int.floor_le_floor (by linarith)

/-- C7 (amended to non-negative scores in the threshold part): `rep_level` is
monotone over all integer scores, and for every score `s ≥ 0` the threshold of
the reached tier does not exceed `s`. -/
theorem tier_curve_correct :
    (∀ a b : ℤ, a < b → rep_level a ≤ rep_level b) ∧
    (∀ s : ℤ, 0 ≤ s → rep_threshold (rep_level s) ≤ s) := by
  have hS := hLOG_SCALE_pos
  constructor
  · intro a b hab
    unfold rep_level
    by_cases hb : b ≤ 0
    · rw [if_pos (by omega), if_pos hb]
    · rw [if_neg hb]
      by_cases ha : a ≤ 0
      · rw [if_pos ha]
        exact Nat.zero_le _
      · rw [if_neg ha]
        apply levelOfY_mono
        have hc : (a : ℚ) ≤ (b : ℚ) := by exact_mod_cast hab.le
        have := (div_le_div_iff_of_pos_right hS).mpr hc
        linarith
  · intro s hs
    unfold rep_level
    by_cases hs0 : s ≤ 0
    · rw [if_pos hs0]
      unfold rep_threshold
      simp [round_zero]
      omega
    · rw [if_neg hs0]
      have hy1 : (1 : ℚ) ≤ (s : ℚ) / LOG_SCALE + 1 := by
        have : (0 : ℚ) ≤ (s : ℚ) / LOG_SCALE :=
          div_nonneg (by exact_mod_cast hs) hS.le
        linarith
      have hpow := levelOfY_pow_le hy1
      set l := levelOfY ((s : ℚ) / LOG_SCALE + 1) with hl
      have hthr : rep_threshold (l : ℤ) = round (LOG_SCALE * (LOG_BASE ^ l - 1)) := by
        unfold rep_threshold
        have h1 : (max 0 (l : ℤ)).toNat = l := by
          rw [max_eq_right (by positivity)]
          exact Int.toNat_natCast l
        rw [h1]
        have h0 : (0 : ℚ) ≤ LOG_SCALE * (LOG_BASE ^ l - 1) := by
          have hB1 : (1 : ℚ) ≤ LOG_BASE ^ l := one_le_pow₀ hLOG_BASE_pos.le
          nlinarith
        have : (0 : ℤ) ≤ round (LOG_SCALE * (LOG_BASE ^ l - 1)) := by
          rw [round_eq]
          have : (0 : ℚ) ≤ LOG_SCALE * (LOG_BASE ^ l - 1) + 1 / 2 := by linarith
          exact Int.floor_nonneg.mpr (by linarith)
        omega
      rw [hthr]
      have hmul : LOG_SCALE * (LOG_BASE ^ l - 1) ≤ (s : ℚ) := by
        have h2 : LOG_BASE ^ l - 1 ≤ (s : ℚ) / LOG_SCALE := by linarith
        calc LOG_SCALE * (LOG_BASE ^ l - 1) ≤ LOG_SCALE * ((s : ℚ) / LOG_SCALE) := by
              exact mul_le_mul_of_nonneg_left h2 hS.le
          _ = (s : ℚ) := by field_simp
      calc round (LOG_SCALE * (LOG_BASE ^ l - 1)) ≤ round ((s : ℚ)) := round_le_of_le hmul
        _ = s := by exact_mod_cast round_intCast s

/-- C7 as frozen is false for negative scores: at `s = -1` the tier is 0 and
`rep_threshold 0 = 0 > -1`. -/
theorem tier_curve_counterexample : ¬ rep_threshold (rep_level (-1)) ≤ (-1 : ℤ) := by
  have h1 : rep_level (-1) = 0 := by
    unfold rep_level
    rw [if_pos (by omega)]
  rw [h1]
  unfold rep_threshold
  simp [round_zero]

theorem tier_curve_witness :
    rep_level (-3) ≤ rep_level 5 ∧ rep_threshold (rep_level 5) ≤ 5 :=
  ⟨tier_curve_correct.1 (-3) 5 (by decide), tier_curve_correct.2 5 (by decide)⟩

end Foxcom
